import Mathlib

/-!
Verification of the iCash system core against its specification.

The development shallowly embeds the three source files:
* `cash-register-service/app/main.py` — the transactional ledger write
  (`submit_purchase`), modelled as a pure function on an explicit database
  state with transaction rollback semantics;
* `dashboard-service/app/main.py` — the stats endpoint's top-products
  selection with its inclusive tie rule at the 3rd-place boundary;
* `db-init/init.py` — the idempotent bootstrap importer
  (`initialize_database`) with its best-effort historical replay.

Machine rows are records over `Nat`/`Int`/`String`; SERIAL surrogate keys are
modelled as `max + 1`; a SQL transaction is an `Option`-valued computation
whose `none` outcome leaves the observable state unchanged (rollback).
-/

/-- A row of the `products` relation: `product_id SERIAL PRIMARY KEY,
product_name VARCHAR NOT NULL UNIQUE, unit_price NUMERIC NOT NULL`.
The price is kept in cents as an integer. -/
structure ProductRow where
  product_id : Nat
  product_name : String
  unit_price : Int
deriving DecidableEq, Repr

/-- A row of the `purchases` relation: `purchase_id SERIAL PRIMARY KEY,
supermarket_id VARCHAR NOT NULL, timestamp TIMESTAMP NOT NULL,
user_id VARCHAR NOT NULL`. Timestamps are abstracted to `Nat`. -/
structure PurchaseRow where
  purchase_id : Nat
  supermarket_id : String
  timestamp : Nat
  user_id : String
deriving DecidableEq, Repr

/-- A row of the `purchase_items` junction relation:
`purchase_id INT REFERENCES purchases, product_id INT REFERENCES products,
PRIMARY KEY (purchase_id, product_id)`. -/
structure PurchaseItemRow where
  purchase_id : Nat
  product_id : Nat
deriving DecidableEq, Repr

/-- The observable database state: the three relations, each as the ordered
list of committed rows. -/
structure DB where
  products : List ProductRow
  purchases : List PurchaseRow
  purchase_items : List PurchaseItemRow
deriving DecidableEq, Repr

/-- The surrogate keys currently present in `products`. -/
def productIds (db : DB) : List Nat :=
  db.products.map (fun r => r.product_id)

/-- The surrogate keys currently present in `purchases`. -/
def purchaseIds (db : DB) : List Nat :=
  db.purchases.map (fun r => r.purchase_id)

/-- Referential integrity of the junction table into `purchases`, as a
decidable boolean check: every `purchase_items` row references an existing
purchase. This is the invariant the schema's foreign key enforces. -/
def WFb (db : DB) : Bool :=
  db.purchase_items.all (fun r => (purchaseIds db).contains r.purchase_id)

/-- The next SERIAL value for `purchases`: one past the maximum key in use. -/
def nextPurchaseId (db : DB) : Nat :=
  (purchaseIds db).foldr max 0 + 1

/-- The next SERIAL value for `products`: one past the maximum key in use. -/
def nextProductId (db : DB) : Nat :=
  (productIds db).foldr max 0 + 1

/-- `INSERT INTO purchases (supermarket_id, timestamp, user_id) VALUES (...)
RETURNING purchase_id`: appends one header row with a fresh SERIAL key and
returns the new state with the generated id. The row's NOT NULL columns are
always supplied, so this insert cannot violate a constraint. -/
def insertPurchase (db : DB) (sid : String) (ts : Nat) (uid : String) :
    DB × Nat :=
  let pid := nextPurchaseId db
  ({ db with purchases := db.purchases ++ [⟨pid, sid, ts, uid⟩] }, pid)

/-- `INSERT INTO purchase_items (purchase_id, product_id) VALUES (...)`:
succeeds only if both foreign keys resolve and the composite primary key is
not already taken; otherwise the statement raises (modelled as `none`). -/
def insertPurchaseItem (db : DB) (pid : Nat) (prodId : Nat) : Option DB :=
  if (purchaseIds db).contains pid
      && (productIds db).contains prodId
      && !(db.purchase_items.any
            (fun r => r.purchase_id == pid && r.product_id == prodId)) then
    some { db with purchase_items := db.purchase_items ++ [⟨pid, prodId⟩] }
  else
    none

/-- The loop of `submit_purchase` step 4: insert one junction row per item id,
in order; the first failing insert aborts the whole sequence. -/
def insertItems (db : DB) (pid : Nat) : List Nat → Option DB
  | [] => some db
  | i :: rest =>
    match insertPurchaseItem db pid i with
    | some db1 => insertItems db1 pid rest
    | none => none

/-- Step 1 of `submit_purchase` (line 46 of the source):
`customer_id = str(uuid.uuid4()) if is_new_customer or not user_id else
user_id`. The freshly drawn UUID is passed in as `fresh`. -/
def resolveCustomer (isNew : Bool) (uid : String) (fresh : String) : String :=
  if isNew || uid == "" then fresh else uid

/-- What the handler returns to the HTTP layer: either the re-rendered page
with a success message (carrying the committed state, the generated purchase
id and the resolved customer id), or the re-rendered page with an error
message and an HTTP status (carrying the rolled-back state). -/
inductive Response where
  | successPage (db : DB) (purchaseId : Nat) (customerId : String)
  | errorPage (db : DB) (status : Nat)
deriving DecidableEq, Repr

/-- The `/submit_purchase` handler. It resolves the customer id, opens a
transaction, inserts the purchase header, then one junction row per item.
Any insert failure is caught by the handler's `except` block, which rolls the
transaction back and returns the error page with status 500 itself — so the
result is always an answered response (`Except.ok`), never a propagated
exception (`Except.error`). -/
def submit_purchase (db : DB) (sid : String) (uid : String) (isNew : Bool)
    (items : List Nat) (fresh : String) (now : Nat) :
    Except String Response :=
  let customerId := resolveCustomer isNew uid fresh
  let r := insertPurchase db sid now customerId
  match insertItems r.1 r.2 items with
  | some db2 => Except.ok (Response.successPage db2 r.2 customerId)
  | none => Except.ok (Response.errorPage db 500)

/-- Any key in a `Nat` list is bounded by the list's `foldr max 0`. -/
theorem mem_le_foldr_max (l : List Nat) (x : Nat) (hx : x ∈ l) :
    x ≤ l.foldr max 0 := by
  induction l with
  | nil => cases hx
  | cons a t ih =>
    rcases List.mem_cons.mp hx with h | h
    · subst h; exact le_max_left _ _
    · exact le_trans (ih h) (le_max_right _ _)

/-- The generated SERIAL purchase id is fresh: no existing header row
carries it. -/
theorem nextPurchaseId_fresh (db : DB) (x : Nat) (hx : x ∈ purchaseIds db) :
    x ≠ nextPurchaseId db := by
  intro h
  have := mem_le_foldr_max _ _ hx
  simp only [nextPurchaseId] at h
  omega

/-- `insertItems` only appends junction rows, all tagged with the given
purchase id, one per input item; the other relations are untouched. -/
theorem insertItems_spec :
    ∀ (items : List Nat) (db : DB) (pid : Nat) (db' : DB),
      insertItems db pid items = some db' →
      db'.products = db.products ∧ db'.purchases = db.purchases ∧
      ∃ tl, db'.purchase_items = db.purchase_items ++ tl ∧
        tl.length = items.length ∧ ∀ r ∈ tl, r.purchase_id = pid := by
  intro items
  induction items with
  | nil =>
    intro db pid db' h
    simp only [insertItems, Option.some.injEq] at h
    subst h
    exact ⟨rfl, rfl, [], by simp⟩
  | cons i rest ih =>
    intro db pid db' h
    simp only [insertItems] at h
    cases hins : insertPurchaseItem db pid i with
    | none => rw [hins] at h; cases h
    | some db1 =>
      rw [hins] at h
      obtain ⟨hp, hq, tl, htl, hlen, hall⟩ := ih db1 pid db' h
      simp only [insertPurchaseItem] at hins
      split at hins
      · cases hins
        refine ⟨hp, hq, ⟨pid, i⟩ :: tl, ?_, by simp [hlen], ?_⟩
        · simpa using htl
        · intro r hr
          rcases List.mem_cons.mp hr with h | h
          · subst h; rfl
          · exact hall r h
      · cases hins

/-- If some item insert fails, `insertItems` fails. In particular an item id
absent from `products` (a foreign-key violation) dooms the sequence. -/
theorem insertItems_ok_mem_products :
    ∀ (items : List Nat) (db : DB) (pid : Nat) (db' : DB),
      insertItems db pid items = some db' →
      ∀ i ∈ items, (productIds db).contains i = true := by
  intro items
  induction items with
  | nil => intro db pid db' _ i hi; cases hi
  | cons j rest ih =>
    intro db pid db' h i hi
    simp only [insertItems] at h
    cases hins : insertPurchaseItem db pid j with
    | none => rw [hins] at h; cases h
    | some db1 =>
      rw [hins] at h
      have hmem : (productIds db).contains j = true := by
        simp only [insertPurchaseItem] at hins
        split at hins
        · rename_i hc
          simp only [Bool.and_eq_true] at hc
          exact hc.1.2
        · cases hins
      rcases List.mem_cons.mp hi with h' | h'
      · subst h'; exact hmem
      · have hprod : productIds db1 = productIds db := by
          simp only [insertPurchaseItem] at hins
          split at hins
          · cases hins; rfl
          · cases hins
        have := ih db1 pid db' h i h'
        rwa [hprod] at this

/-- The accumulation loop of the stats endpoint (dashboard source lines
60-64): walk the ranked product list; keep appending while fewer than 3
results are collected or the current sales count still reaches the
3rd-place count; `break` at the first product failing both tests. -/
def topLoop (third : Nat) :
    List (String × Nat) → List (String × Nat) → List (String × Nat)
  | acc, [] => acc
  | acc, p :: rest =>
    if acc.length < 3 ∨ third ≤ p.2 then topLoop third (acc ++ [p]) rest
    else acc

/-- The `third_place_sales_count` variable of the stats endpoint: `0`, or the
sales count of the 3rd-ranked row when at least 3 rows exist. -/
def thirdPlaceCount (all : List (String × Nat)) : Nat :=
  if 3 ≤ all.length then (all[2]?.getD ("", 0)).2 else 0

/-- The `top_products` computation of `/api/stats`: the input is the
`all_products` result set — per-product sales counts, one row per product
with at least one sale, ordered by sales count descending — and the output is
the tie-inclusive selection of the leading products. -/
def top_products (all : List (String × Nat)) : List (String × Nat) :=
  if all.isEmpty then [] else topLoop (thirdPlaceCount all) [] all

/-- One step of the loop while fewer than 3 results are collected: the
current product is always appended. -/
theorem topLoop_step_lt (third : Nat) (acc : List (String × Nat))
    (p : String × Nat) (l : List (String × Nat)) (h : acc.length < 3) :
    topLoop third acc (p :: l) = topLoop third (acc ++ [p]) l := by
  simp only [topLoop]
  rw [if_pos (Or.inl h)]

/-- Once 3 results are collected, the loop appends exactly the longest prefix
of the remaining rows whose counts still reach the 3rd-place count. -/
theorem topLoop_full (third : Nat) :
    ∀ (l acc : List (String × Nat)), 3 ≤ acc.length →
      topLoop third acc l =
        acc ++ l.takeWhile (fun p => decide (third ≤ p.2)) := by
  intro l
  induction l with
  | nil => intro acc _; simp [topLoop]
  | cons p rest ih =>
    intro acc hacc
    simp only [topLoop]
    by_cases hp : third ≤ p.2
    · rw [if_pos (Or.inr hp), ih _ (by simp; omega),
        List.takeWhile_cons_of_pos (by simpa using hp)]
      simp
    · rw [if_neg (by push_neg; exact ⟨by omega, by omega⟩),
        List.takeWhile_cons_of_neg (by simpa using hp)]
      simp

/-- When every remaining row passes the threshold, the loop keeps
everything. -/
theorem topLoop_all (third : Nat) :
    ∀ (l acc : List (String × Nat)), (∀ p ∈ l, third ≤ p.2) →
      topLoop third acc l = acc ++ l := by
  intro l
  induction l with
  | nil => intro acc _; simp [topLoop]
  | cons p rest ih =>
    intro acc hall
    simp only [topLoop]
    rw [if_pos (Or.inr (hall p (by simp))),
      ih _ (fun q hq => hall q (by simp [hq]))]
    simp

/-- On a list sorted by count descending, taking the prefix above a threshold
is the same as filtering by the threshold: nothing below the first failure
can pass again. -/
theorem takeWhile_eq_filter_sorted (third : Nat) :
    ∀ (l : List (String × Nat)),
      List.Sorted (fun a b : String × Nat => b.2 ≤ a.2) l →
      l.takeWhile (fun p => decide (third ≤ p.2)) =
        l.filter (fun p => decide (third ≤ p.2)) := by
  intro l
  induction l with
  | nil => intro _; rfl
  | cons p rest ih =>
    intro hs
    rw [List.sorted_cons] at hs
    by_cases hp : third ≤ p.2
    · rw [List.takeWhile_cons_of_pos (by simpa using hp),
        List.filter_cons_of_pos (by simpa using hp), ih hs.2]
    · rw [List.takeWhile_cons_of_neg (by simpa using hp),
        List.filter_cons_of_neg (by simpa using hp)]
      symm
      rw [List.filter_eq_nil_iff]
      intro q hq
      have := hs.1 q hq
      simp only [decide_eq_true_eq]
      omega

/-- C1: the stats endpoint's `topProducts`, fed the per-product sales counts
ordered by count descending, returns all of them when fewer than 3 products
have sales (the empty sequence when none do), and otherwise returns exactly
the products — in ranked order — whose sales count reaches the 3rd-ranked
product's count S, i.e. the tie-inclusive top 3. -/
theorem top_products_tie_rule (all : List (String × Nat))
    (hsorted : List.Sorted (fun a b : String × Nat => b.2 ≤ a.2) all) :
    (all = [] → top_products all = []) ∧
    (all.length < 3 → top_products all = all) ∧
    (3 ≤ all.length →
      top_products all =
        all.filter (fun p => decide (thirdPlaceCount all ≤ p.2))) := by
  refine ⟨?_, ?_, ?_⟩
  · intro h; subst h; rfl
  · intro hlen
    rcases all with _ | ⟨a, tail⟩
    · rfl
    · have hthird : thirdPlaceCount (a :: tail) = 0 := by
        simp only [thirdPlaceCount]
        rw [if_neg (by omega)]
      simp only [top_products, List.isEmpty_cons, if_false, hthird,
        Bool.false_eq_true]
      exact topLoop_all 0 (a :: tail) [] (fun p _ => Nat.zero_le _)
  · intro h3
    rcases all with _ | ⟨a, all⟩
    · simp at h3
    rcases all with _ | ⟨b, all⟩
    · simp at h3
    rcases all with _ | ⟨c, rest⟩
    · simp at h3
    have hS : thirdPlaceCount (a :: b :: c :: rest) = c.2 := by
      simp [thirdPlaceCount]
    rw [List.sorted_cons] at hsorted
    obtain ⟨ha, hsorted⟩ := hsorted
    rw [List.sorted_cons] at hsorted
    obtain ⟨hb, hsorted⟩ := hsorted
    rw [List.sorted_cons] at hsorted
    obtain ⟨hc, hrest⟩ := hsorted
    rw [hS]
    have e1 : top_products (a :: b :: c :: rest)
        = topLoop c.2 [] (a :: b :: c :: rest) := by
      simp [top_products, hS]
    rw [e1,
      topLoop_step_lt c.2 [] a (b :: c :: rest) (by simp),
      topLoop_step_lt c.2 ([] ++ [a]) b (c :: rest) (by simp),
      topLoop_step_lt c.2 ([] ++ [a] ++ [b]) c rest (by simp),
      topLoop_full c.2 rest ([] ++ [a] ++ [b] ++ [c]) (by simp),
      takeWhile_eq_filter_sorted c.2 rest hrest]
    have hfa : c.2 ≤ a.2 := ha c (by simp)
    have hfb : c.2 ≤ b.2 := hb c (by simp)
    rw [List.filter_cons_of_pos (by simpa using hfa),
      List.filter_cons_of_pos (by simpa using hfb),
      List.filter_cons_of_pos (by simp)]
    simp

/-- Witness for C1: the two boundary examples from the specification.
With counts A:5, B:4, C:4, D:2 the tie at the 2nd/3rd place is included and
D is excluded; with A:5, B:4, C:3, D:3 the 3rd-place tie extends the result
to 4 entries. -/
theorem top_products_tie_rule_witness :
    top_products [("A", 5), ("B", 4), ("C", 4), ("D", 2)] =
      [("A", 5), ("B", 4), ("C", 4)] ∧
    top_products [("A", 5), ("B", 4), ("C", 3), ("D", 3)] =
      [("A", 5), ("B", 4), ("C", 3), ("D", 3)] := by
  constructor
  · have h := (top_products_tie_rule [("A", 5), ("B", 4), ("C", 4), ("D", 2)]
      (by decide)).2.2 (by decide)
    rw [h]; rfl
  · have h := (top_products_tie_rule [("A", 5), ("B", 4), ("C", 3), ("D", 3)]
      (by decide)).2.2 (by decide)
    rw [h]; rfl

/-- A one-product store used as concrete input by several witnesses. -/
def dbMilk : DB := ⟨[⟨1, "Milk", 500⟩], [], []⟩

/-- C2: if any line-item insert fails mid-transaction, the whole ledger-write
transaction aborts: the handler answers with the rolled-back state — zero new
Purchase rows and zero new PurchaseLineItem rows are observable — and no
partial set of inserts is ever reported as committed. -/
theorem submit_purchase_atomic (db : DB) (sid uid : String) (isNew : Bool)
    (items : List Nat) (fresh : String) (now : Nat)
    (hfail : insertItems
      (insertPurchase db sid now (resolveCustomer isNew uid fresh)).1
      (insertPurchase db sid now (resolveCustomer isNew uid fresh)).2
      items = none) :
    submit_purchase db sid uid isNew items fresh now =
      Except.ok (Response.errorPage db 500) ∧
    ∀ (db2 : DB) (pid : Nat) (cid : String),
      submit_purchase db sid uid isNew items fresh now ≠
        Except.ok (Response.successPage db2 pid cid) := by
  have h : submit_purchase db sid uid isNew items fresh now =
      Except.ok (Response.errorPage db 500) := by
    simp only [submit_purchase]
    rw [hfail]
  refine ⟨h, ?_⟩
  intro db2 pid cid hcontra
  rw [h] at hcontra
  simp at hcontra

/-- Witness for C2: a constraint violation on the last line item (the same
product twice violates the composite primary key) leaves the store exactly as
it was, with the 500 error page. -/
theorem submit_purchase_atomic_witness :
    submit_purchase dbMilk "SMKT001" "u1" false [1, 1] "f" 0 =
      Except.ok (Response.errorPage dbMilk 500) :=
  (submit_purchase_atomic dbMilk "SMKT001" "u1" false [1, 1] "f" 0
    (by decide)).1

/-- Counterexample to C3 as stated: a submission with an empty `productIds`
sequence does not fail with a `ValidationError` before any write — it
succeeds and commits a new Purchase row. -/
theorem submit_purchase_no_validation_counterexample :
    submit_purchase dbMilk "SMKT001" "u1" false [] "f" 0 =
      Except.ok (Response.successPage
        ⟨[⟨1, "Milk", 500⟩], [⟨1, "SMKT001", 0, "u1"⟩], []⟩ 1 "u1") := rfl

/-- C3 amended: the handler performs no input validation. An empty
`productIds` sequence (and likewise an empty `supermarketId`) succeeds and
commits a Purchase row; a non-existing product id makes the transaction fail
after the Purchase insert was already attempted — the transaction is rolled
back, so no row survives, and the failure surfaces as the 500 error page, not
as a `ValidationError` raised before writing. -/
theorem submit_purchase_no_validation (db : DB) (sid uid : String)
    (isNew : Bool) (fresh : String) (now : Nat) :
    (∃ db2, submit_purchase db sid uid isNew [] fresh now =
        Except.ok (Response.successPage db2 (nextPurchaseId db)
          (resolveCustomer isNew uid fresh)) ∧
      db2.purchases ≠ db.purchases) ∧
    (∀ (items : List Nat) (i : Nat), i ∈ items →
      (productIds db).contains i = false →
      submit_purchase db sid uid isNew items fresh now =
        Except.ok (Response.errorPage db 500)) := by
  constructor
  · refine ⟨{ db with purchases := db.purchases ++
      [⟨nextPurchaseId db, sid, now, resolveCustomer isNew uid fresh⟩] },
      rfl, ?_⟩
    intro hcontra
    have := congrArg List.length hcontra
    simp at this
  · intro items i hi hcont
    cases hins : insertItems
        (insertPurchase db sid now (resolveCustomer isNew uid fresh)).1
        (insertPurchase db sid now (resolveCustomer isNew uid fresh)).2
        items with
    | some db' =>
      have hmem := insertItems_ok_mem_products items _ _ db' hins i hi
      have hpe : productIds
          (insertPurchase db sid now (resolveCustomer isNew uid fresh)).1 =
          productIds db := rfl
      rw [hpe, hcont] at hmem
      cases hmem
    | none =>
      simp only [submit_purchase]
      rw [hins]

/-- Witness for C3's amended claim: against a one-product store, the
empty-items submission commits, and a submission referencing the absent
product id 2 rolls back to the original store with a 500. -/
theorem submit_purchase_no_validation_witness :
    (∃ db2, submit_purchase dbMilk "SMKT001" "u1" false [] "f" 0 =
        Except.ok (Response.successPage db2 (nextPurchaseId dbMilk)
          (resolveCustomer false "u1" "f")) ∧
      db2.purchases ≠ dbMilk.purchases) ∧
    submit_purchase dbMilk "SMKT001" "u1" false [2] "f" 0 =
      Except.ok (Response.errorPage dbMilk 500) :=
  ⟨(submit_purchase_no_validation dbMilk "SMKT001" "u1" false "f" 0).1,
   (submit_purchase_no_validation dbMilk "SMKT001" "u1" false "f" 0).2
     [2] 2 (by decide) (by decide)⟩

/-- C4: identity resolution — when `isNewCustomer` is true or the supplied
customer id is empty the resolved id is the freshly generated identifier (so
two calls drawing distinct fresh identifiers resolve differently even with
the same supplied id); otherwise the supplied id is used verbatim. -/
theorem resolveCustomer_identity (isNew : Bool) (uid f1 f2 : String)
    (hf : f1 ≠ f2) :
    ((isNew = true ∨ uid = "") →
      resolveCustomer isNew uid f1 = f1 ∧
      resolveCustomer isNew uid f1 ≠ resolveCustomer isNew uid f2) ∧
    (isNew = false → uid ≠ "" → resolveCustomer isNew uid f1 = uid) := by
  constructor
  · intro h
    have hcond : (isNew || uid == "") = true := by
      rcases h with h | h
      · simp [h]
      · simp [h]
    refine ⟨by simp [resolveCustomer, hcond], ?_⟩
    simp only [resolveCustomer, hcond, if_true]
    exact hf
  · intro h1 h2
    simp [resolveCustomer, h1, h2]

/-- Witness for C4: with `isNewCustomer=true`, the same supplied id "u" and
distinct fresh identifiers, the two resolved ids differ; with
`isNewCustomer=false` and non-empty supplied id, the resolution is verbatim. -/
theorem resolveCustomer_identity_witness :
    (resolveCustomer true "u" "a" = "a" ∧
      resolveCustomer true "u" "a" ≠ resolveCustomer true "u" "b") ∧
    resolveCustomer false "u" "a" = "u" :=
  ⟨(resolveCustomer_identity true "u" "a" "b" (by decide)).1 (Or.inl rfl),
   (resolveCustomer_identity false "u" "a" "b" (by decide)).2 rfl (by decide)⟩

/-- Counterexample to C6 as stated: on a storage error during the ledger
write (absent product id 2), the handler does not re-raise to its caller — it
catches the error and itself produces the user-facing 500 response. -/
theorem submit_purchase_rethrow_counterexample :
    submit_purchase dbMilk "SMKT002" "u7" false [2] "g" 3 =
      Except.ok (Response.errorPage dbMilk 500) := rfl

/-- C6 amended: on any storage error during the ledger write the handler
rolls the transaction back, but it never propagates the exception — it
catches it and returns the 500 error page (with the rolled-back state)
itself, so the handler rather than its caller produces the user-facing
response. -/
theorem submit_purchase_rollback_no_rethrow (db : DB) (sid uid : String)
    (isNew : Bool) (items : List Nat) (fresh : String) (now : Nat) :
    (∀ e : String, submit_purchase db sid uid isNew items fresh now ≠
      Except.error e) ∧
    (insertItems
        (insertPurchase db sid now (resolveCustomer isNew uid fresh)).1
        (insertPurchase db sid now (resolveCustomer isNew uid fresh)).2
        items = none →
      submit_purchase db sid uid isNew items fresh now =
        Except.ok (Response.errorPage db 500)) := by
  constructor
  · intro e h
    simp only [submit_purchase] at h
    cases hins : insertItems
        (insertPurchase db sid now (resolveCustomer isNew uid fresh)).1
        (insertPurchase db sid now (resolveCustomer isNew uid fresh)).2
        items with
    | some db2 => rw [hins] at h; simp at h
    | none => rw [hins] at h; simp at h
  · intro hfail
    simp only [submit_purchase]
    rw [hfail]

/-- Witness for C6's amended claim at a concrete failing submission: the
outcome is the answered 500 page on the rolled-back state, not a propagated
exception. -/
theorem submit_purchase_rollback_no_rethrow_witness :
    submit_purchase dbMilk "SMKT001" "u1" false [2] "f" 0 ≠
      Except.error "TransactionFailed" ∧
    submit_purchase dbMilk "SMKT001" "u1" false [2] "f" 0 =
      Except.ok (Response.errorPage dbMilk 500) :=
  ⟨(submit_purchase_rollback_no_rethrow dbMilk "SMKT001" "u1" false [2]
      "f" 0).1 "TransactionFailed",
   (submit_purchase_rollback_no_rethrow dbMilk "SMKT001" "u1" false [2]
      "f" 0).2 (by decide)⟩

/-- Membership form of the referential-integrity check `WFb`. -/
theorem WFb_mem (db : DB) (hwf : WFb db = true) :
    ∀ r ∈ db.purchase_items, r.purchase_id ∈ purchaseIds db := by
  intro r hr
  have := List.all_eq_true.mp hwf r hr
  simpa using this

/-- C8: after a successful ledger write, exactly one Purchase row and exactly
`items.length` PurchaseLineItem rows carry the returned purchase id, and the
`products` relation is unchanged by the call. -/
theorem submit_purchase_frame (db : DB) (sid uid : String) (isNew : Bool)
    (items : List Nat) (fresh : String) (now : Nat)
    (db2 : DB) (pid : Nat) (cid : String)
    (hwf : WFb db = true)
    (h : submit_purchase db sid uid isNew items fresh now =
      Except.ok (Response.successPage db2 pid cid)) :
    db2.products = db.products ∧
    (db2.purchases.filter (fun r => r.purchase_id == pid)).length = 1 ∧
    (db2.purchase_items.filter (fun r => r.purchase_id == pid)).length =
      items.length := by
  simp only [submit_purchase] at h
  cases hins : insertItems
      (insertPurchase db sid now (resolveCustomer isNew uid fresh)).1
      (insertPurchase db sid now (resolveCustomer isNew uid fresh)).2
      items with
  | none => rw [hins] at h; simp at h
  | some db2' =>
    rw [hins] at h
    simp only [Except.ok.injEq, Response.successPage.injEq] at h
    obtain ⟨hdb, hpid, hcid⟩ := h
    subst hdb
    obtain ⟨hp, hq, tl, htl, hlen, hall⟩ :=
      insertItems_spec items _ _ _ hins
    have hpideq : (insertPurchase db sid now
        (resolveCustomer isNew uid fresh)).2 = nextPurchaseId db := rfl
    rw [hpideq] at hall
    have hpidval : pid = nextPurchaseId db := hpid.symm.trans hpideq
    subst hpidval
    have hfreshId : ∀ x ∈ purchaseIds db, (x == nextPurchaseId db) = false := by
      intro x hx
      simp only [beq_eq_false_iff_ne, ne_eq]
      exact nextPurchaseId_fresh db x hx
    refine ⟨hp, ?_, ?_⟩
    · have e : db2'.purchases = db.purchases ++
          [(⟨nextPurchaseId db, sid, now,
            resolveCustomer isNew uid fresh⟩ : PurchaseRow)] := hq
      rw [e, List.filter_append]
      have hnil : db.purchases.filter
          (fun r => r.purchase_id == nextPurchaseId db) = [] := by
        rw [List.filter_eq_nil_iff]
        intro r hr
        have : r.purchase_id ∈ purchaseIds db := by
          simp only [purchaseIds]
          exact List.mem_map_of_mem _ hr
        simp [hfreshId r.purchase_id this]
      rw [hnil]
      simp
    · have e2 : db2'.purchase_items = db.purchase_items ++ tl := htl
      rw [e2, List.filter_append]
      have hnil : db.purchase_items.filter
          (fun r => r.purchase_id == nextPurchaseId db) = [] := by
        rw [List.filter_eq_nil_iff]
        intro r hr
        simp [hfreshId r.purchase_id (WFb_mem db hwf r hr)]
      have hself : tl.filter
          (fun r => r.purchase_id == nextPurchaseId db) = tl := by
        rw [List.filter_eq_self]
        intro r hr
        simp [hall r hr]
      rw [hnil, hself]
      simpa using hlen

/-- Witness for C8: a valid one-item submission against the one-product
store commits one header row and one line-item row under the returned id. -/
theorem submit_purchase_frame_witness :
    (⟨[⟨1, "Milk", 500⟩], [⟨1, "SMKT001", 0, "u1"⟩], [⟨1, 1⟩]⟩ : DB).products
        = dbMilk.products ∧
    (((⟨[⟨1, "Milk", 500⟩], [⟨1, "SMKT001", 0, "u1"⟩], [⟨1, 1⟩]⟩ : DB)
        ).purchases.filter (fun r => r.purchase_id == 1)).length = 1 ∧
    (((⟨[⟨1, "Milk", 500⟩], [⟨1, "SMKT001", 0, "u1"⟩], [⟨1, 1⟩]⟩ : DB)
        ).purchase_items.filter (fun r => r.purchase_id == 1)).length =
      [1].length :=
  submit_purchase_frame dbMilk "SMKT001" "u1" false [1] "f" 0
    ⟨[⟨1, "Milk", 500⟩], [⟨1, "SMKT001", 0, "u1"⟩], [⟨1, 1⟩]⟩ 1 "u1"
    (by decide) rfl

/-- C9: the handler accepts the degenerate inputs without failing — an empty
items sequence commits exactly one Purchase row and zero PurchaseLineItem
rows and returns the success response, and an empty supermarket id is stored
verbatim as the empty string on the committed header row. -/
theorem submit_purchase_empty_inputs (db : DB) (sid uid : String)
    (isNew : Bool) (fresh : String) (now : Nat) :
    (submit_purchase db sid uid isNew [] fresh now =
      Except.ok (Response.successPage
        { db with purchases := db.purchases ++
            [⟨nextPurchaseId db, sid, now, resolveCustomer isNew uid fresh⟩] }
        (nextPurchaseId db) (resolveCustomer isNew uid fresh))) ∧
    (∀ (items : List Nat) (db2 : DB) (pid : Nat) (cid : String),
      submit_purchase db "" uid isNew items fresh now =
        Except.ok (Response.successPage db2 pid cid) →
      (⟨pid, "", now, cid⟩ : PurchaseRow) ∈ db2.purchases) := by
  constructor
  · rfl
  · intro items db2 pid cid h
    simp only [submit_purchase] at h
    cases hins : insertItems
        (insertPurchase db "" now (resolveCustomer isNew uid fresh)).1
        (insertPurchase db "" now (resolveCustomer isNew uid fresh)).2
        items with
    | none => rw [hins] at h; simp at h
    | some db2' =>
      rw [hins] at h
      simp only [Except.ok.injEq, Response.successPage.injEq] at h
      obtain ⟨hdb, hpid, hcid⟩ := h
      subst hdb
      subst hpid
      subst hcid
      obtain ⟨_, hq, _⟩ := insertItems_spec items _ _ _ hins
      rw [hq]
      show (⟨nextPurchaseId db, "", now,
        resolveCustomer isNew uid fresh⟩ : PurchaseRow) ∈
        db.purchases ++ [⟨nextPurchaseId db, "", now,
          resolveCustomer isNew uid fresh⟩]
      simp

/-- Witness for C9: the empty-items call on the one-product store succeeds
with one header row and no line items, and an empty-supermarket call stores
the empty string verbatim. -/
theorem submit_purchase_empty_inputs_witness :
    submit_purchase dbMilk "SMKT001" "u1" false [] "f" 0 =
      Except.ok (Response.successPage
        { dbMilk with purchases := dbMilk.purchases ++
            [⟨nextPurchaseId dbMilk, "SMKT001", 0,
              resolveCustomer false "u1" "f"⟩] }
        (nextPurchaseId dbMilk) (resolveCustomer false "u1" "f")) ∧
    (⟨1, "", 0, "u1"⟩ : PurchaseRow) ∈
      (⟨[⟨1, "Milk", 500⟩], [⟨1, "", 0, "u1"⟩], [⟨1, 1⟩]⟩ : DB).purchases :=
  ⟨(submit_purchase_empty_inputs dbMilk "SMKT001" "u1" false "f" 0).1,
   (submit_purchase_empty_inputs dbMilk "SMKT001" "u1" false "f" 0).2
     [1] ⟨[⟨1, "Milk", 500⟩], [⟨1, "", 0, "u1"⟩], [⟨1, 1⟩]⟩ 1 "u1"
     rfl⟩

/-- A row of the purchase-history source (`data/purchases.csv`): the columns
`supermarket_id`, `timestamp`, `user_id` and the comma-separated
`items_list`. -/
structure PurchaseRecord where
  supermarket_id : String
  timestamp : Nat
  user_id : String
  items_list : String
deriving DecidableEq, Repr

/-- The two tabular bootstrap sources: the product catalog
(`product_name`, `unit_price`) and the historical purchase records. -/
structure InitSources where
  productRows : List (String × Int)
  purchaseRows : List PurchaseRecord
deriving DecidableEq, Repr

/-- The character-level worker for the comma split: Python's
`str.split(',')`, which never drops pieces (an empty input yields one empty
piece). -/
def splitComma : List Char → List Char → List (List Char)
  | [], acc => [acc.reverse]
  | c :: cs, acc =>
    if c = ',' then acc.reverse :: splitComma cs []
    else splitComma cs (c :: acc)

/-- Python's `str.strip()`: drop whitespace from both ends. -/
def stripChars (cs : List Char) : List Char :=
  ((cs.dropWhile Char.isWhitespace).reverse.dropWhile
    Char.isWhitespace).reverse

/-- Line 98 of the importer: split the `items_list` column on commas and
strip each resulting name. -/
def parseItems (s : String) : List String :=
  (splitComma s.toList []).map (fun cs => String.mk (stripChars cs))

/-- One row of the catalog bulk load: appending a product row fails if the
UNIQUE constraint on the name is violated. -/
def insertProduct (db : DB) (name : String) (price : Int) : Option DB :=
  if db.products.any (fun r => r.product_name == name) then none
  else some { db with products :=
    db.products ++ [⟨nextProductId db, name, price⟩] }

/-- The catalog bulk load (`products_df.to_sql`, append mode): insert each
source row in order; the first failure aborts. -/
def loadProducts (db : DB) : List (String × Int) → Option DB
  | [] => some db
  | row :: rest =>
    match insertProduct db row.1 row.2 with
    | some db1 => loadProducts db1 rest
    | none => none

/-- Step 2 of the importer: read back the Product relation into
name-to-id pairs. -/
def buildNameMap (db : DB) : List (String × Nat) :=
  db.products.map (fun r => (r.product_name, r.product_id))

/-- The Python dict comprehension over the read-back pairs followed by
`.get(name)`: the last binding for a name wins; absent names give `none`. -/
def lookupName (m : List (String × Nat)) (n : String) : Option Nat :=
  (m.reverse.find? (fun p => p.1 == n)).map (fun p => p.2)

/-- The product ids the replay loop actually inserts for a list of item
names: the looked-up ids that are truthy in Python (present and non-zero),
in order. -/
def resolvedIds (m : List (String × Nat)) (names : List String) : List Nat :=
  (names.map (fun n => (lookupName m n).getD 0)).filter (fun i => i != 0)

/-- The replay of one record's item names (importer lines 99-107):
`product_id = name_to_id_map.get(name)`, then `if product_id:` insert the
junction row, `else` log a warning and skip that line item. -/
def replayItems (m : List (String × Nat)) (pid : Nat) :
    DB → List String → Option DB
  | db, [] => some db
  | db, n :: rest =>
    if (lookupName m n).getD 0 != 0 then
      match insertPurchaseItem db pid ((lookupName m n).getD 0) with
      | some db1 => replayItems m pid db1 rest
      | none => none
    else replayItems m pid db rest

/-- The replay of one historical record (importer lines 88-107): insert the
purchase header, then best-effort insert its resolvable line items. -/
def replayRecord (m : List (String × Nat)) (db : DB) (rec : PurchaseRecord) :
    Option DB :=
  let r := insertPurchase db rec.supermarket_id rec.timestamp rec.user_id
  replayItems m r.2 r.1 (parseItems rec.items_list)

/-- The `purchases_df.iterrows()` loop: replay each historical record in
order; the first storage failure aborts. -/
def replayAll (m : List (String × Nat)) :
    DB → List PurchaseRecord → Option DB
  | db, [] => some db
  | db, rec :: rest =>
    match replayRecord m db rec with
    | some db1 => replayAll m db1 rest
    | none => none

/-- The single data-loading transaction of `initialize_database` (lines
68-110): seed the catalog if `products` is empty, build the name-to-id map
from the read-back relation, then replay history if `purchases` is empty.
A `none` outcome is an exception escaping the `with conn.begin()` block:
everything in the transaction — both steps — is rolled back. -/
def initDataTx (db : DB) (src : InitSources) : Option DB :=
  (if db.products.isEmpty then loadProducts db src.productRows
   else some db).bind (fun db1 =>
    if db1.purchases.isEmpty then
      replayAll (buildNameMap db1) db1 src.purchaseRows
    else some db1)

/-- The observable outcome of running the importer: the committed state and
`true`, or — when the transaction raised — the unchanged original state and
`false` (the exception is fatal to the startup sequence). -/
def initialize_database (db : DB) (src : InitSources) : DB × Bool :=
  match initDataTx db src with
  | some db1 => (db1, true)
  | none => (db, false)

/-- A successful product insert leaves the purchase relations untouched. -/
theorem insertProduct_preserves (db : DB) (n : String) (p : Int) (db1 : DB)
    (h : insertProduct db n p = some db1) :
    db1.purchases = db.purchases ∧ db1.purchase_items = db.purchase_items := by
  simp only [insertProduct] at h
  split at h
  · cases h
  · cases h; exact ⟨rfl, rfl⟩

/-- A successful junction-row insert leaves products and purchases
untouched. -/
theorem insertPurchaseItem_preserves (db : DB) (pid i : Nat) (db1 : DB)
    (h : insertPurchaseItem db pid i = some db1) :
    db1.products = db.products ∧ db1.purchases = db.purchases := by
  simp only [insertPurchaseItem] at h
  split at h
  · cases h; exact ⟨rfl, rfl⟩
  · cases h

/-- The catalog bulk load writes only to `products`. -/
theorem loadProducts_preserves :
    ∀ (rows : List (String × Int)) (db db' : DB),
      loadProducts db rows = some db' →
      db'.purchases = db.purchases ∧
      db'.purchase_items = db.purchase_items := by
  intro rows
  induction rows with
  | nil =>
    intro db db' h
    simp only [loadProducts, Option.some.injEq] at h
    subst h
    exact ⟨rfl, rfl⟩
  | cons row rest ih =>
    intro db db' h
    simp only [loadProducts] at h
    cases hins : insertProduct db row.1 row.2 with
    | none => rw [hins] at h; cases h
    | some db1 =>
      rw [hins] at h
      obtain ⟨h1, h2⟩ := ih db1 db' h
      obtain ⟨g1, g2⟩ := insertProduct_preserves db row.1 row.2 db1 hins
      exact ⟨h1.trans g1, h2.trans g2⟩

/-- The item-name replay loop writes only to `purchase_items`. -/
theorem replayItems_preserves (m : List (String × Nat)) (pid : Nat) :
    ∀ (names : List String) (db db' : DB),
      replayItems m pid db names = some db' →
      db'.products = db.products ∧ db'.purchases = db.purchases := by
  intro names
  induction names with
  | nil =>
    intro db db' h
    simp only [replayItems, Option.some.injEq] at h
    subst h
    exact ⟨rfl, rfl⟩
  | cons n rest ih =>
    intro db db' h
    simp only [replayItems] at h
    split at h
    · cases hins : insertPurchaseItem db pid ((lookupName m n).getD 0) with
      | none => rw [hins] at h; cases h
      | some db1 =>
        rw [hins] at h
        obtain ⟨h1, h2⟩ := ih db1 db' h
        obtain ⟨g1, g2⟩ := insertPurchaseItem_preserves db pid _ db1 hins
        exact ⟨h1.trans g1, h2.trans g2⟩
    · exact ih db db' h

/-- The historical replay never writes to `products`. -/
theorem replayAll_products (m : List (String × Nat)) :
    ∀ (recs : List PurchaseRecord) (db db' : DB),
      replayAll m db recs = some db' → db'.products = db.products := by
  intro recs
  induction recs with
  | nil =>
    intro db db' h
    simp only [replayAll, Option.some.injEq] at h
    subst h
    rfl
  | cons rec rest ih =>
    intro db db' h
    simp only [replayAll] at h
    cases hrec : replayRecord m db rec with
    | none => rw [hrec] at h; cases h
    | some db1 =>
      rw [hrec] at h
      have h1 := ih db1 db' h
      simp only [replayRecord] at hrec
      have h2 := (replayItems_preserves m _ _ _ _ hrec).1
      exact h1.trans (h2.trans rfl)

/-- C5: bootstrap idempotence — if `products` is non-empty the importer
leaves it untouched, if `purchases` is non-empty the importer leaves it and
`purchase_items` untouched, and the two emptiness checks are independent: a
fully populated store sees zero inserts (the run commits the store verbatim),
while a partially-seeded store (products present, purchases absent) resumes
by seeding only purchases. -/
theorem initialize_database_idempotent (db : DB) (src : InitSources) :
    (db.products ≠ [] →
      (initialize_database db src).1.products = db.products) ∧
    (db.purchases ≠ [] →
      (initialize_database db src).1.purchases = db.purchases ∧
      (initialize_database db src).1.purchase_items = db.purchase_items) ∧
    (db.products ≠ [] → db.purchases ≠ [] →
      initialize_database db src = (db, true)) := by
  have hprodEmpty : db.products ≠ [] → db.products.isEmpty = false := by
    intro hne
    cases hl : db.products with
    | nil => exact absurd hl hne
    | cons a l => rfl
  have hpurEmpty : db.purchases ≠ [] → db.purchases.isEmpty = false := by
    intro hne
    cases hl : db.purchases with
    | nil => exact absurd hl hne
    | cons a l => rfl
  have keyP : ∀ db', initDataTx db src = some db' → db.products ≠ [] →
      db'.products = db.products := by
    intro db' h hne
    simp only [initDataTx, hprodEmpty hne, Bool.false_eq_true, if_false,
      Option.some_bind] at h
    by_cases hq : db.purchases.isEmpty = true
    · rw [if_pos hq] at h
      exact replayAll_products _ _ _ _ h
    · rw [if_neg hq] at h
      cases h
      rfl
  have keyQ : ∀ db', initDataTx db src = some db' → db.purchases ≠ [] →
      db'.purchases = db.purchases ∧
      db'.purchase_items = db.purchase_items := by
    intro db' h hne
    simp only [initDataTx] at h
    rw [Option.bind_eq_some] at h
    obtain ⟨db1, h1, h2⟩ := h
    have hpres : db1.purchases = db.purchases ∧
        db1.purchase_items = db.purchase_items := by
      by_cases hpe : db.products.isEmpty = true
      · rw [if_pos hpe] at h1
        exact loadProducts_preserves _ _ _ h1
      · rw [if_neg hpe] at h1
        cases h1
        exact ⟨rfl, rfl⟩
    have hq1 : db1.purchases.isEmpty = false := by
      rw [hpres.1]
      exact hpurEmpty hne
    rw [if_neg (by simp [hq1])] at h2
    cases h2
    exact hpres
  have keyBoth : db.products ≠ [] → db.purchases ≠ [] →
      initDataTx db src = some db := by
    intro hp hq
    simp only [initDataTx, hprodEmpty hp, hpurEmpty hq, Bool.false_eq_true,
      if_false, Option.some_bind]
  refine ⟨?_, ?_, ?_⟩
  · intro hne
    cases hinit : initDataTx db src with
    | none => simp [initialize_database, hinit]
    | some db' =>
      simp only [initialize_database, hinit]
      exact keyP db' hinit hne
  · intro hne
    cases hinit : initDataTx db src with
    | none => constructor <;> simp [initialize_database, hinit]
    | some db' =>
      have hkq := keyQ db' hinit hne
      constructor <;> simp [initialize_database, hinit, hkq.1, hkq.2]
  · intro hp hq
    simp [initialize_database, keyBoth hp hq]

/-- A fully populated store, used by the idempotence witness. -/
def dbFull : DB :=
  ⟨[⟨1, "Milk", 500⟩], [⟨1, "S1", 0, "u1"⟩], [⟨1, 1⟩]⟩

/-- Witness for C5: against the fully populated store, a run with non-trivial
sources commits the store verbatim — zero inserts. -/
theorem initialize_database_idempotent_witness :
    initialize_database dbFull
      ⟨[("Bread", 300)], [⟨"S2", 1, "u2", "Bread"⟩]⟩ = (dbFull, true) :=
  (initialize_database_idempotent dbFull
    ⟨[("Bread", 300)], [⟨"S2", 1, "u2", "Bread"⟩]⟩).2.2
    (by decide) (by decide)

/-- C10: catalog seeding and historical replay share one transaction, so a
mid-replay insert failure rolls back the product rows inserted earlier in the
same run — the observable store afterwards is exactly the store before the
call, in every relation. -/
theorem initialize_database_shared_tx (db : DB) (src : InitSources)
    (db1 : DB)
    (h1 : (if db.products.isEmpty then loadProducts db src.productRows
      else some db) = some db1)
    (h2 : db1.purchases.isEmpty = true)
    (h3 : replayAll (buildNameMap db1) db1 src.purchaseRows = none) :
    initialize_database db src = (db, false) := by
  have hinit : initDataTx db src = none := by
    simp only [initDataTx]
    rw [h1]
    show (if db1.purchases.isEmpty = true then
      replayAll (buildNameMap db1) db1 src.purchaseRows
      else some db1) = none
    rw [if_pos h2]
    exact h3
  simp [initialize_database, hinit]

/-- Witness for C10: starting from an empty store, the catalog row Milk is
seeded, then the replay of a record listing Milk twice violates the junction
table's composite primary key — the run fails and the observable store is
the original empty store, with the seeded product row rolled back too. -/
theorem initialize_database_shared_tx_witness :
    initialize_database ⟨[], [], []⟩
      ⟨[("Milk", 500)], [⟨"S1", 0, "u1", "Milk,Milk"⟩]⟩ =
      (⟨[], [], []⟩, false) :=
  initialize_database_shared_tx ⟨[], [], []⟩
    ⟨[("Milk", 500)], [⟨"S1", 0, "u1", "Milk,Milk"⟩]⟩
    ⟨[⟨1, "Milk", 500⟩], [], []⟩ (by decide) (by decide) (by decide)

/-- Unfolding of `resolvedIds` over the head name. -/
theorem resolvedIds_cons (m : List (String × Nat)) (n : String)
    (rest : List String) :
    resolvedIds m (n :: rest) =
      if ((lookupName m n).getD 0 != 0) = true
      then (lookupName m n).getD 0 :: resolvedIds m rest
      else resolvedIds m rest := by
  simp only [resolvedIds, List.map_cons, List.filter_cons]

/-- The replay loop on one record's names: under the freshness and
constraint-satisfaction conditions for the resolvable names, it succeeds and
appends exactly the junction rows for the resolvable names — the
unresolvable names are skipped, nothing else changes, and the loop does not
fail. -/
theorem replayItems_skip (m : List (String × Nat)) (pid : Nat) :
    ∀ (names : List String) (db : DB),
      (purchaseIds db).contains pid = true →
      (∀ r ∈ db.purchase_items, r.purchase_id = pid →
        r.product_id ∉ resolvedIds m names) →
      (∀ i ∈ resolvedIds m names, (productIds db).contains i = true) →
      (resolvedIds m names).Nodup →
      replayItems m pid db names =
        some { db with purchase_items :=
          (db.purchase_items ++ (resolvedIds m names).map
            (fun i => (⟨pid, i⟩ : PurchaseItemRow))) } := by
  intro names
  induction names with
  | nil =>
    intro db hpid hold hfk hnd
    simp [replayItems, resolvedIds]
  | cons n rest ih =>
    intro db hpid hold hfk hnd
    by_cases hc : ((lookupName m n).getD 0 != 0) = true
    · have hreq : resolvedIds m (n :: rest) =
          (lookupName m n).getD 0 :: resolvedIds m rest := by
        rw [resolvedIds_cons, if_pos hc]
      simp only [hreq] at hold hfk hnd
      have hfkO : (productIds db).contains ((lookupName m n).getD 0)
          = true := hfk _ (by simp)
      have hany : db.purchase_items.any
          (fun r => r.purchase_id == pid &&
            r.product_id == (lookupName m n).getD 0) = false := by
        rw [List.any_eq_false]
        intro r hr hcontra
        simp only [Bool.and_eq_true, beq_iff_eq] at hcontra
        exact hold r hr hcontra.1 (by simp [hcontra.2])
      have hins : insertPurchaseItem db pid ((lookupName m n).getD 0) =
          some { db with purchase_items :=
            db.purchase_items ++ [⟨pid, (lookupName m n).getD 0⟩] } := by
        simp only [insertPurchaseItem]
        rw [hpid, hfkO, hany]
        rfl
      simp only [replayItems]
      rw [if_pos hc, hins]
      show replayItems m pid
        { db with purchase_items :=
          db.purchase_items ++ [⟨pid, (lookupName m n).getD 0⟩] } rest =
        some { db with purchase_items :=
          (db.purchase_items ++ (resolvedIds m (n :: rest)).map
            (fun i => (⟨pid, i⟩ : PurchaseItemRow))) }
      rw [ih { db with purchase_items :=
        db.purchase_items ++ [⟨pid, (lookupName m n).getD 0⟩] }
        hpid ?_ ?_ ?_]
      · congr 1
        simp [hreq]
      · intro r hr hre
        rcases List.mem_append.mp hr with h | h
        · intro hcmem
          exact hold r h hre (List.mem_cons_of_mem _ hcmem)
        · simp only [List.mem_singleton] at h
          subst h
          intro hcmem
          exact (List.nodup_cons.mp hnd).1 hcmem
      · intro i hi
        exact hfk i (List.mem_cons_of_mem _ hi)
      · exact (List.nodup_cons.mp hnd).2
    · have hreq : resolvedIds m (n :: rest) = resolvedIds m rest := by
        rw [resolvedIds_cons, if_neg hc]
      simp only [hreq] at hold hfk hnd ⊢
      simp only [replayItems]
      rw [if_neg hc]
      exact ih _ hpid hold hfk hnd

/-- C7: best-effort historical replay of one record. When the record's
resolvable item names satisfy the junction constraints (referential
integrity holds, the resolvable ids exist in the catalog and are pairwise
distinct), a name absent from the name-to-id mapping is merely skipped with
a warning: the Purchase header row is still inserted, the line items for all
resolvable names in the same record are still inserted, and the replay does
not fail. -/
theorem replayRecord_best_effort (m : List (String × Nat)) (db : DB)
    (rec : PurchaseRecord)
    (hwf : WFb db = true)
    (hfk : ∀ i ∈ resolvedIds m (parseItems rec.items_list),
      (productIds db).contains i = true)
    (hnd : (resolvedIds m (parseItems rec.items_list)).Nodup) :
    replayRecord m db rec = some { db with
      purchases := db.purchases ++ [⟨nextPurchaseId db, rec.supermarket_id,
        rec.timestamp, rec.user_id⟩],
      purchase_items :=
        (db.purchase_items ++ (resolvedIds m (parseItems rec.items_list)).map
          (fun i => (⟨nextPurchaseId db, i⟩ : PurchaseItemRow))) } := by
  show replayItems m (nextPurchaseId db)
      { db with purchases := db.purchases ++ [⟨nextPurchaseId db,
        rec.supermarket_id, rec.timestamp, rec.user_id⟩] }
      (parseItems rec.items_list) = _
  rw [replayItems_skip m (nextPurchaseId db) (parseItems rec.items_list)
    { db with purchases := db.purchases ++ [⟨nextPurchaseId db,
      rec.supermarket_id, rec.timestamp, rec.user_id⟩] }
    ?_ ?_ ?_ hnd]
  · simp [purchaseIds]
  · intro r hr hre
    exact absurd hre (nextPurchaseId_fresh db r.purchase_id
      (WFb_mem db hwf r hr))
  · intro i hi
    exact hfk i hi

/-- Witness for C7: replaying the record "Milk,Cheese,Bread" against a
two-product catalog skips only the unresolvable Cheese line item, still
inserts the purchase header and the Milk and Bread line items, and does not
fail. -/
theorem replayRecord_best_effort_witness :
    replayRecord [("Milk", 1), ("Bread", 2)]
      ⟨[⟨1, "Milk", 500⟩, ⟨2, "Bread", 300⟩], [], []⟩
      ⟨"S1", 5, "u9", "Milk,Cheese,Bread"⟩ =
      some ⟨[⟨1, "Milk", 500⟩, ⟨2, "Bread", 300⟩],
        [⟨1, "S1", 5, "u9"⟩], [⟨1, 1⟩, ⟨1, 2⟩]⟩ := by
  have h := replayRecord_best_effort [("Milk", 1), ("Bread", 2)]
    ⟨[⟨1, "Milk", 500⟩, ⟨2, "Bread", 300⟩], [], []⟩
    ⟨"S1", 5, "u9", "Milk,Cheese,Bread"⟩ (by decide) (by decide) (by decide)
  rw [h]
  rfl
